import Mathlib

/-!
Shallow embedding of `src/examples/wasm-languages/rust-template/src/lib.rs`:
a tiny WASM runtime (`WasmRuntime`) with byte buffers for stdout/stderr,
an `eval` routine recognizing `print!`/`println!` snippets, a `run` entry
point that clears the buffers and dispatches to `eval`, and lossy UTF-8
accessors `get_stdout`/`get_stderr`.

Snippets (Rust `&str`) are modelled as `List Char`; the byte buffers
(Rust `Vec<u8>`) as `List Nat` with each element a byte value.
-/

/-- The runtime state: `stdout_buffer` and `stderr_buffer` are the two
`Vec<u8>` fields of the Rust `WasmRuntime` struct. -/
structure WasmRuntime where
  stdout_buffer : List Nat
  stderr_buffer : List Nat
deriving DecidableEq, Repr

/-- Rust `char::is_whitespace`: membership in the Unicode `White_Space`
property (U+0009–U+000D, space, NEL, NBSP, Ogham space mark,
U+2000–U+200A, line/paragraph separator, narrow no-break space, medium
mathematical space, ideographic space). -/
def char_is_whitespace (c : Char) : Bool :=
  decide ((0x09 ≤ c.toNat ∧ c.toNat ≤ 0x0D) ∨ c.toNat = 0x20 ∨
    c.toNat = 0x85 ∨ c.toNat = 0xA0 ∨ c.toNat = 0x1680 ∨
    (0x2000 ≤ c.toNat ∧ c.toNat ≤ 0x200A) ∨ c.toNat = 0x2028 ∨
    c.toNat = 0x2029 ∨ c.toNat = 0x202F ∨ c.toNat = 0x205F ∨
    c.toNat = 0x3000)

/-- Rust `str::trim`: remove leading and trailing Unicode whitespace
characters. -/
def trim (s : List Char) : List Char :=
  ((s.dropWhile char_is_whitespace).reverse.dropWhile char_is_whitespace).reverse

/-- Rust `str::strip_prefix`: `some` of the remainder when `p` is a prefix
of `s`, otherwise `none`. -/
def strip_prefix (p s : List Char) : Option (List Char) :=
  if p.isPrefixOf s then some (s.drop p.length) else none

/-- Rust `str::trim_start_matches(c)`: remove all leading occurrences of
the character `c`. -/
def trim_start_matches (c : Char) (s : List Char) : List Char :=
  s.dropWhile (fun a => a == c)

/-- Rust `str::trim_end_matches(c)`: remove all trailing occurrences of
the character `c`. -/
def trim_end_matches (c : Char) (s : List Char) : List Char :=
  (s.reverse.dropWhile (fun a => a == c)).reverse

/-- UTF-8 encoding of a single Unicode scalar value (Rust `str::as_bytes`
acts on already-encoded text; we encode each `Char` of the modelled
string). -/
def utf8EncodeChar (c : Char) : List Nat :=
  let n := c.toNat
  if n < 0x80 then [n]
  else if n < 0x800 then [0xC0 + n / 64, 0x80 + n % 64]
  else if n < 0x10000 then
    [0xE0 + n / 4096, 0x80 + (n / 64) % 64, 0x80 + n % 64]
  else
    [0xF0 + n / 262144, 0x80 + (n / 4096) % 64, 0x80 + (n / 64) % 64,
      0x80 + n % 64]

/-- UTF-8 encoding of a modelled string, byte by byte (Rust
`str::as_bytes`). -/
def utf8Encode (s : List Char) : List Nat :=
  (s.map utf8EncodeChar).flatten

/-- `WasmRuntime::eval`: trim the snippet; empty → `Ok(0)`; a snippet
starting with `print!` → strip all leading `(` and all trailing `)` from
the remainder, append it and a newline byte to stdout, `Ok(0)`; likewise
for a snippet starting with `println!`; anything else → append the
trimmed snippet and a newline byte to stdout, `Ok(0)`. -/
def eval (st : WasmRuntime) (code0 : List Char) :
    WasmRuntime × Except (List Char) Int :=
  let code := trim code0
  if code.isEmpty then (st, Except.ok 0)
  else
    match strip_prefix (("print!").toList) code with
    | some expr =>
      let content := trim_end_matches (')') (trim_start_matches ('(') expr)
      ({ st with stdout_buffer := st.stdout_buffer ++ utf8Encode content ++ [10] },
        Except.ok 0)
    | none =>
      match strip_prefix (("println!").toList) code with
      | some expr =>
        let content := trim_end_matches (')') (trim_start_matches ('(') expr)
        ({ st with stdout_buffer := st.stdout_buffer ++ utf8Encode content ++ [10] },
          Except.ok 0)
      | none =>
        ({ st with stdout_buffer := st.stdout_buffer ++ utf8Encode code ++ [10] },
          Except.ok 0)

/-- `WasmRuntime::run`: clear both buffers, evaluate; on `Ok(result)`
return `result`; on `Err(e)` append `"Error: {e}\n"` to stderr and
return `1`. -/
def run (st0 : WasmRuntime) (code : List Char) : WasmRuntime × Int :=
  let st := { st0 with stdout_buffer := [], stderr_buffer := [] }
  match eval st code with
  | (st1, Except.ok result) => (st1, result)
  | (st1, Except.error e) =>
    ({ st1 with stderr_buffer :=
        st1.stderr_buffer ++ utf8Encode ((("Error: ").toList) ++ e ++ ['\n']) }, 1)

/-- Decode the first UTF-8 scalar value of a byte list: `some` of the
scalar and the remaining bytes when the list starts with a valid UTF-8
sequence, `none` otherwise.  The accepted shapes are exactly the valid
UTF-8 sequences (ASCII; 2-byte `C2..DF`; 3-byte with the `E0`/`ED`
range restrictions excluding overlong forms and surrogates; 4-byte with
the `F0`/`F4` range restrictions capping at `U+10FFFF`). -/
def utf8One : List Nat → Option (Nat × List Nat)
  | [] => none
  | b0 :: tl =>
    if b0 ≤ 0x7F then some (b0, tl) else
    match tl with
    | [] => none
    | b1 :: tl1 =>
      if 0xC2 ≤ b0 ∧ b0 ≤ 0xDF ∧ 0x80 ≤ b1 ∧ b1 ≤ 0xBF then
        some ((b0 - 0xC0) * 64 + (b1 - 0x80), tl1)
      else
        match tl1 with
        | [] => none
        | b2 :: tl2 =>
          if ((b0 = 0xE0 ∧ 0xA0 ≤ b1 ∧ b1 ≤ 0xBF) ∨
              ((0xE1 ≤ b0 ∧ b0 ≤ 0xEC ∨ b0 = 0xEE ∨ b0 = 0xEF) ∧
                0x80 ≤ b1 ∧ b1 ≤ 0xBF) ∨
              (b0 = 0xED ∧ 0x80 ≤ b1 ∧ b1 ≤ 0x9F)) ∧
              0x80 ≤ b2 ∧ b2 ≤ 0xBF then
            some ((b0 - 0xE0) * 4096 + (b1 - 0x80) * 64 + (b2 - 0x80), tl2)
          else
            match tl2 with
            | [] => none
            | b3 :: tl3 =>
              if ((b0 = 0xF0 ∧ 0x90 ≤ b1 ∧ b1 ≤ 0xBF) ∨
                  (0xF1 ≤ b0 ∧ b0 ≤ 0xF3 ∧ 0x80 ≤ b1 ∧ b1 ≤ 0xBF) ∨
                  (b0 = 0xF4 ∧ 0x80 ≤ b1 ∧ b1 ≤ 0x8F)) ∧
                  (0x80 ≤ b2 ∧ b2 ≤ 0xBF) ∧ 0x80 ≤ b3 ∧ b3 ≤ 0xBF then
                some ((b0 - 0xF0) * 262144 + (b1 - 0x80) * 4096 +
                  (b2 - 0x80) * 64 + (b3 - 0x80), tl3)
              else none

/-- Fuelled strict UTF-8 decoding into a list of scalar values: `none` as
soon as an invalid sequence is met (Rust `str::from_utf8`-style
validity).  Each step consumes at least one byte, so `fuel = length`
never runs out. -/
def from_utf8Go : Nat → List Nat → Option (List Nat)
  | _, [] => some []
  | 0, _ :: _ => none
  | fuel + 1, b :: tl =>
    match utf8One (b :: tl) with
    | none => none
    | some (c, rest) => (from_utf8Go fuel rest).map (fun cs => c :: cs)

/-- Strict UTF-8 decoding of a whole byte list. -/
def from_utf8 (bs : List Nat) : Option (List Nat) :=
  from_utf8Go bs.length bs

/-- Modelled from the spec: fuelled lossy UTF-8 decoding underlying Rust
`String::from_utf8_lossy` — valid sequences decode as usual, and any
byte that does not start a valid sequence is replaced by the
replacement character `U+FFFD` (the accessor never fails). -/
def from_utf8_lossyGo : Nat → List Nat → List Nat
  | _, [] => []
  | 0, _ :: _ => []
  | fuel + 1, b :: tl =>
    match utf8One (b :: tl) with
    | none => 0xFFFD :: from_utf8_lossyGo fuel tl
    | some (c, rest) => c :: from_utf8_lossyGo fuel rest

/-- Lossy UTF-8 decoding of a whole byte list (Rust
`String::from_utf8_lossy`), as a list of Unicode scalar values. -/
def from_utf8_lossy (bs : List Nat) : List Nat :=
  from_utf8_lossyGo bs.length bs

/-- `WasmRuntime::get_stdout`: lossy decoding of the stdout buffer. -/
def get_stdout (st : WasmRuntime) : List Nat :=
  from_utf8_lossy st.stdout_buffer

/-- `WasmRuntime::get_stderr`: lossy decoding of the stderr buffer. -/
def get_stderr (st : WasmRuntime) : List Nat :=
  from_utf8_lossy st.stderr_buffer

/-- `get_stdout` with its `&self` receiver made explicit: the call
returns the decoded text together with the (unchanged) state. -/
def get_stdout_call (st : WasmRuntime) : List Nat × WasmRuntime :=
  (get_stdout st, st)

/-- `get_stderr` with its `&self` receiver made explicit. -/
def get_stderr_call (st : WasmRuntime) : List Nat × WasmRuntime :=
  (get_stderr st, st)

/-- Helper: `eval` always returns `Ok(0)` and never touches the stderr
buffer. -/
theorem eval_ok_zero (st : WasmRuntime) (code : List Char) :
    (eval st code).2 = Except.ok 0 ∧
      (eval st code).1.stderr_buffer = st.stderr_buffer := by
  simp only [eval]
  split
  · exact ⟨rfl, rfl⟩
  · split
    · exact ⟨rfl, rfl⟩
    · split
      · exact ⟨rfl, rfl⟩
      · exact ⟨rfl, rfl⟩

/-- Claim C3: every call of `run` returns normally with status code 0 and
leaves the stderr buffer empty (the error branch is never taken). -/
theorem c3_run_status_zero_stderr_empty (st : WasmRuntime) (code : List Char) :
    (run st code).2 = 0 ∧ (run st code).1.stderr_buffer = [] := by
  have h := eval_ok_zero ⟨[], []⟩ code
  simp only [run]
  rcases hev : eval ⟨[], []⟩ code with ⟨st1, r⟩
  rw [hev] at h
  obtain ⟨h1, h2⟩ := h
  simp only at h1 h2
  subst h1
  simp [h2]

/-- Claim C4: the result of `run` does not depend on the prior state of
the instance — both buffers are fully cleared at the start, so the
post-state and status are a function of the snippet alone. -/
theorem c4_run_independent_of_prior_state (st1 st2 : WasmRuntime)
    (code : List Char) : run st1 code = run st2 code := rfl

/-- Claim C5: `print!(hello)` and `println!(hello)` both return 0, print
`hello` plus a newline to stdout, and leave stderr empty. -/
theorem c5_print_println_hello :
    run ⟨[7], [8]⟩ (("print!(hello)").toList) =
      (⟨utf8Encode (("hello").toList) ++ [10], []⟩, 0) ∧
    run ⟨[7], [8]⟩ (("println!(hello)").toList) =
      (⟨utf8Encode (("hello").toList) ++ [10], []⟩, 0) ∧
    get_stdout (run ⟨[7], [8]⟩ (("print!(hello)").toList)).1 =
      (("hello\n").toList).map Char.toNat ∧
    get_stderr (run ⟨[7], [8]⟩ (("print!(hello)").toList)).1 = [] ∧
    get_stdout (run ⟨[7], [8]⟩ (("println!(hello)").toList)).1 =
      (("hello\n").toList).map Char.toNat ∧
    get_stderr (run ⟨[7], [8]⟩ (("println!(hello)").toList)).1 = [] := by
  decide

/-- Claim C7: a snippet that is empty or all whitespace returns status 0
and leaves both buffers empty. -/
theorem c7_whitespace_empty_buffers (st : WasmRuntime) (code : List Char)
    (hws : ∀ c ∈ code, char_is_whitespace c = true) :
    run st code = (⟨[], []⟩, 0) := by
  have h1 : code.dropWhile char_is_whitespace = [] :=
    List.dropWhile_eq_nil_iff.mpr hws
  have h2 : trim code = [] := by simp [trim, h1]
  simp [run, eval, h2]

/-- Witness for C7 at a whitespace-only snippet mixing a space, a form
feed (U+000C) and a no-break space (U+00A0), from a dirty prior state. -/
theorem c7_witness :
    run ⟨[1], [2]⟩ ((" \u000C ").toList) = (⟨[], []⟩, 0) :=
  c7_whitespace_empty_buffers ⟨[1], [2]⟩ ((" \u000C ").toList) (by decide)

/-- Claim C8: the bare snippets `print!` and `println!` succeed with
status 0, stdout holding exactly one newline byte, and stderr empty. -/
theorem c8_bare_print_forms :
    run ⟨[3], [4]⟩ (("print!").toList) = (⟨[10], []⟩, 0) ∧
    run ⟨[3], [4]⟩ (("println!").toList) = (⟨[10], []⟩, 0) ∧
    get_stdout (run ⟨[3], [4]⟩ (("print!").toList)).1 = [10] ∧
    get_stderr (run ⟨[3], [4]⟩ (("print!").toList)).1 = [] ∧
    get_stdout (run ⟨[3], [4]⟩ (("println!").toList)).1 = [10] ∧
    get_stderr (run ⟨[3], [4]⟩ (("println!").toList)).1 = [] := by
  decide

/-- Claim C10: the read accessors do not mutate the state, and reading
twice without an intervening `run` yields identical text both times. -/
theorem c10_reads_idempotent (st : WasmRuntime) :
    (get_stdout_call st).2 = st ∧
    (get_stdout_call ((get_stdout_call st).2)).1 = (get_stdout_call st).1 ∧
    (get_stderr_call st).2 = st ∧
    (get_stderr_call ((get_stderr_call st).2)).1 = (get_stderr_call st).1 :=
  ⟨rfl, rfl, rfl, rfl⟩

/-- Helper: `dropWhile` walks over an appended list up to a failing head. -/
theorem dropWhile_append_cons (p : Char → Bool) (A B : List Char) (b : Char)
    (hb : p b = false) :
    (A ++ b :: B).dropWhile p = A.dropWhile p ++ b :: B := by
  rw [List.dropWhile_append]
  simp [List.dropWhile_cons, hb]

/-- Helper: trimming a snippet that starts and ends with non-whitespace
marker characters only right-trims the remainder. -/
theorem trim_of_marker (a b : Char) (m ys R : List Char)
    (ha : char_is_whitespace a = false) (hb : char_is_whitespace b = false)
    (hrev : (a :: m).reverse = b :: ys) :
    trim (a :: m ++ R) =
      a :: m ++ (R.reverse.dropWhile char_is_whitespace).reverse := by
  have h1 : (a :: m ++ R).dropWhile char_is_whitespace = a :: m ++ R := by
    simp [List.dropWhile_cons, ha]
  have h2 : (a :: m ++ R).reverse = R.reverse ++ b :: ys := by
    rw [← hrev]
    simp
  unfold trim
  rw [h1, h2, dropWhile_append_cons _ _ _ _ hb, List.reverse_append, ← hrev,
    List.reverse_reverse]

/-- Helper: `strip_prefix` succeeds exactly on genuine prefixes, returning
the remainder. -/
theorem strip_prefix_eq_some (p s t : List Char) :
    strip_prefix p s = some t ↔ s = p ++ t := by
  unfold strip_prefix
  split
  · rename_i hp
    rw [List.isPrefixOf_iff_prefix] at hp
    obtain ⟨u, hu⟩ := hp
    subst hu
    simp [List.drop_left]
  · rename_i hp
    constructor
    · intro h
      exact absurd h (by simp)
    · intro h
      subst h
      exact absurd (by rw [List.isPrefixOf_iff_prefix]; exact List.prefix_append p t) hp

/-- Helper: `print!` is not a textual prefix of any `println!` snippet
(the sixth characters differ). -/
theorem print_not_before_println (t : List Char) :
    ((("print!").toList).isPrefixOf ((("println!").toList) ++ t)) = false := by
  simp [List.isPrefixOf]

/-- Helper: `strip_prefix` on an exact prefix returns the remainder. -/
theorem strip_prefix_append (p t : List Char) :
    strip_prefix p (p ++ t) = some t :=
  (strip_prefix_eq_some p (p ++ t) t).mpr rfl

/-- Helper: `eval` on a snippet `print!R`: the argument text is `R`
right-trimmed, with all leading `(` and all trailing `)` removed, then
a newline. -/
theorem eval_print_marker (st : WasmRuntime) (R : List Char) :
    eval st ((("print!").toList) ++ R) =
      ({ st with stdout_buffer := st.stdout_buffer ++
          utf8Encode (trim_end_matches (')') (trim_start_matches ('(')
            ((R.reverse.dropWhile char_is_whitespace).reverse))) ++ [10] },
        Except.ok 0) := by
  have e : ("print!").toList = 'p' :: (("rint!").toList) := rfl
  have htrim : trim ((("print!").toList) ++ R) =
      (("print!").toList) ++ (R.reverse.dropWhile char_is_whitespace).reverse := by
    rw [e]
    exact trim_of_marker 'p' '!' (("rint!").toList) (("tnirp").toList) R
      (by decide) (by decide) (by decide)
  have hne : (((("print!").toList) ++
      (R.reverse.dropWhile char_is_whitespace).reverse)).isEmpty = false := by
    rw [e]
    rfl
  simp only [eval, htrim, hne, strip_prefix_append]
  rfl

/-- Helper: `eval` on a snippet `println!R` behaves exactly as on
`print!R`: the `print!` branch does not fire (sixth character mismatch)
and the `println!` branch produces the same output. -/
theorem eval_println_marker (st : WasmRuntime) (R : List Char) :
    eval st ((("println!").toList) ++ R) =
      ({ st with stdout_buffer := st.stdout_buffer ++
          utf8Encode (trim_end_matches (')') (trim_start_matches ('(')
            ((R.reverse.dropWhile char_is_whitespace).reverse))) ++ [10] },
        Except.ok 0) := by
  have e : ("println!").toList = 'p' :: (("rintln!").toList) := rfl
  have htrim : trim ((("println!").toList) ++ R) =
      (("println!").toList) ++ (R.reverse.dropWhile char_is_whitespace).reverse := by
    rw [e]
    exact trim_of_marker 'p' '!' (("rintln!").toList) (("nltnirp").toList) R
      (by decide) (by decide) (by decide)
  have hne : (((("println!").toList) ++
      (R.reverse.dropWhile char_is_whitespace).reverse)).isEmpty = false := by
    rw [e]
    rfl
  have hnone : strip_prefix (("print!").toList)
      ((("println!").toList) ++ (R.reverse.dropWhile char_is_whitespace).reverse) =
      none := by
    unfold strip_prefix
    rw [print_not_before_println]
    rfl
  simp only [eval, htrim, hne, hnone, strip_prefix_append]
  rfl

/-- Claim C6: the two print-style spellings are handled identically — for
every suffix `R`, running `print!R` and `println!R` gives the same
status, stdout, and stderr. -/
theorem c6_print_println_equivalent (st : WasmRuntime) (R : List Char) :
    run st ((("print!").toList) ++ R) = run st ((("println!").toList) ++ R) := by
  simp only [run, eval_print_marker, eval_println_marker]

/-- Counterexample for C1 as stated: on `print!((x))` the code strips
BOTH layers of parentheses (payload `x`), not just the outermost one
(payload `(x)`); the claimed single-strip behavior is false. -/
theorem c1_counterexample :
    strip_prefix (("print!").toList) (trim (("print!((x))").toList)) =
      some (("((x))").toList) ∧
    (run ⟨[], []⟩ (("print!((x))").toList)).1.stdout_buffer =
      utf8Encode (("x").toList) ++ [10] ∧
    (run ⟨[], []⟩ (("print!((x))").toList)).1.stdout_buffer ≠
      utf8Encode (("(x)").toList) ++ [10] := by
  decide

/-- Claim C1 (amended): for a snippet whose trimmed text begins with the
`print!` marker (or, failing that, the `println!` marker), the payload
emitted to stdout is the remaining argument text with ALL leading `(`
characters and ALL trailing `)` characters removed, followed by one
newline byte; status is 0 and stderr stays empty. -/
theorem c1_print_strips_all_parens (st : WasmRuntime) (code expr : List Char)
    (h : strip_prefix (("print!").toList) (trim code) = some expr ∨
         strip_prefix (("println!").toList) (trim code) = some expr) :
    run st code =
      (⟨utf8Encode (trim_end_matches (')') (trim_start_matches ('(') expr)) ++ [10],
        []⟩, 0) := by
  rcases h with h | h
  · have hs : trim code = (("print!").toList) ++ expr :=
      (strip_prefix_eq_some _ _ _).mp h
    have hne : (trim code).isEmpty = false := by
      rw [hs]
      rfl
    simp only [run, eval, hne, h]
    rfl
  · have hs : trim code = (("println!").toList) ++ expr :=
      (strip_prefix_eq_some _ _ _).mp h
    have hnone : strip_prefix (("print!").toList) (trim code) = none := by
      rw [hs]
      unfold strip_prefix
      rw [print_not_before_println]
      rfl
    have hne : (trim code).isEmpty = false := by
      rw [hs]
      rfl
    simp only [run, eval, hne, hnone, h]
    rfl

/-- Witness for C1 (amended) at the snippet `print!((x))`, whose argument
text `((x))` loses all its parentheses. -/
theorem c1_witness :
    run ⟨[9], [9]⟩ (("print!((x))").toList) =
      (⟨utf8Encode (trim_end_matches (')')
          (trim_start_matches ('(') (("((x))").toList))) ++ [10], []⟩, 0) ∧
    utf8Encode (trim_end_matches (')')
        (trim_start_matches ('(') (("((x))").toList))) ++ [10] =
      (("x\n").toList).map Char.toNat :=
  ⟨c1_print_strips_all_parens ⟨[9], [9]⟩ (("print!((x))").toList)
      (("((x))").toList) (Or.inl (by decide)),
    by decide⟩

/-- Counterexample for C2 as stated: on the snippet `" a"` (trimmed text
`a`, not a print form) the code echoes the TRIMMED text `a`, not the
original snippet text `" a"`. -/
theorem c2_counterexample :
    trim ((" a").toList) ≠ [] ∧
    strip_prefix (("print!").toList) (trim ((" a").toList)) = none ∧
    strip_prefix (("println!").toList) (trim ((" a").toList)) = none ∧
    (run ⟨[], []⟩ ((" a").toList)).1.stdout_buffer =
      utf8Encode (("a").toList) ++ [10] ∧
    (run ⟨[], []⟩ ((" a").toList)).1.stdout_buffer ≠
      utf8Encode ((" a").toList) ++ [10] := by
  decide

/-- Claim C2 (amended): a snippet that is non-empty after trimming and
whose trimmed text starts with neither `print!` nor `println!` returns
status 0 with stdout holding the TRIMMED snippet text followed by
exactly one newline byte, and stderr empty. -/
theorem c2_fallback_echoes_trimmed (st : WasmRuntime) (code : List Char)
    (h0 : trim code ≠ [])
    (h1 : strip_prefix (("print!").toList) (trim code) = none)
    (h2 : strip_prefix (("println!").toList) (trim code) = none) :
    run st code = (⟨utf8Encode (trim code) ++ [10], []⟩, 0) := by
  have hne : (trim code).isEmpty = false := by
    cases htc : trim code
    · exact absurd htc h0
    · rfl
  simp only [run, eval, hne, h1, h2]
  rfl

/-- Witness for C2 (amended) at the spec's example snippet `x + 1`. -/
theorem c2_witness :
    run ⟨[5], [6]⟩ (("x + 1").toList) =
      (⟨utf8Encode (trim (("x + 1").toList)) ++ [10], []⟩, 0) ∧
    utf8Encode (trim (("x + 1").toList)) ++ [10] =
      (("x + 1\n").toList).map Char.toNat :=
  ⟨c2_fallback_echoes_trimmed ⟨[5], [6]⟩ (("x + 1").toList)
      (by decide) (by decide) (by decide),
    by decide⟩

/-- Helper: decoding one UTF-8 scalar consumes at least one byte. -/
theorem utf8One_length_lt (bs : List Nat) (p : Nat × List Nat)
    (h : utf8One bs = some p) : p.2.length < bs.length := by
  obtain ⟨c, rest⟩ := p
  rcases bs with _ | ⟨b0, _ | ⟨b1, _ | ⟨b2, _ | ⟨b3, tl⟩⟩⟩⟩
  · simp [utf8One] at h
  all_goals simp only [utf8One] at h
  all_goals split_ifs at h <;> (try simp_all) <;> omega

/-- Helper: when strict UTF-8 decoding succeeds, lossy decoding agrees
with it at every fuel level. -/
theorem lossyGo_eq_of_strictGo (fuel : Nat) :
    ∀ bs cps, from_utf8Go fuel bs = some cps →
      from_utf8_lossyGo fuel bs = cps := by
  induction fuel with
  | zero =>
    intro bs cps h
    cases bs with
    | nil =>
      simp only [from_utf8Go, Option.some.injEq] at h
      simp [from_utf8_lossyGo, ← h]
    | cons b tl => simp [from_utf8Go] at h
  | succ n ih =>
    intro bs cps h
    cases bs with
    | nil =>
      simp only [from_utf8Go, Option.some.injEq] at h
      simp [from_utf8_lossyGo, ← h]
    | cons b tl =>
      cases hone : utf8One (b :: tl) with
      | none =>
        simp only [from_utf8Go, hone] at h
        exact Option.noConfusion h
      | some p =>
        obtain ⟨c, rest⟩ := p
        simp only [from_utf8Go, hone] at h
        cases hgo : from_utf8Go n rest with
        | none => rw [hgo] at h; simp at h
        | some cs =>
          rw [hgo] at h
          simp at h
          subst h
          simp only [from_utf8_lossyGo, hone]
          rw [ih rest cs hgo]

/-- Helper: when strict UTF-8 decoding fails, lossy decoding emits the
replacement character somewhere (given enough fuel). -/
theorem lossyGo_mem_of_strictGo_none (fuel : Nat) :
    ∀ bs, bs.length ≤ fuel → from_utf8Go fuel bs = none →
      (0xFFFD : Nat) ∈ from_utf8_lossyGo fuel bs := by
  induction fuel with
  | zero =>
    intro bs hlen h
    cases bs with
    | nil => simp [from_utf8Go] at h
    | cons b tl => simp only [List.length_cons] at hlen; omega
  | succ n ih =>
    intro bs hlen h
    cases bs with
    | nil => simp [from_utf8Go] at h
    | cons b tl =>
      cases hone : utf8One (b :: tl) with
      | none =>
        simp only [from_utf8_lossyGo, hone]
        exact List.mem_cons_self _ _
      | some p =>
        obtain ⟨c, rest⟩ := p
        simp only [from_utf8Go, hone] at h
        cases hgo : from_utf8Go n rest with
        | some cs => rw [hgo] at h; simp at h
        | none =>
          have hlt : rest.length < (b :: tl).length :=
            utf8One_length_lt _ _ hone
          have hle : rest.length ≤ n := by
            simp only [List.length_cons] at hlt hlen
            omega
          simp only [from_utf8_lossyGo, hone]
          exact List.mem_cons_of_mem _ (ih rest hle hgo)

/-- Claim C9: the output accessors are total and permissive — whenever the
buffer is valid UTF-8 they return exactly its decoding, and whenever it
is not they still return text, containing the replacement character
`U+FFFD` in place of the undecodable part, never failing. -/
theorem c9_readers_total_lossy (st : WasmRuntime) :
    (∀ cps, from_utf8 st.stdout_buffer = some cps → get_stdout st = cps) ∧
    (from_utf8 st.stdout_buffer = none → (0xFFFD : Nat) ∈ get_stdout st) ∧
    (∀ cps, from_utf8 st.stderr_buffer = some cps → get_stderr st = cps) ∧
    (from_utf8 st.stderr_buffer = none → (0xFFFD : Nat) ∈ get_stderr st) := by
  refine ⟨?_, ?_, ?_, ?_⟩
  · intro cps h
    exact lossyGo_eq_of_strictGo _ _ _ h
  · intro h
    exact lossyGo_mem_of_strictGo_none _ _ le_rfl h
  · intro cps h
    exact lossyGo_eq_of_strictGo _ _ _ h
  · intro h
    exact lossyGo_mem_of_strictGo_none _ _ le_rfl h

/-- Witness for C9 on two concrete states, one with a valid and one with
an invalid byte buffer on each stream. -/
theorem c9_witness :
    get_stdout ⟨[0x41], [0xC3, 0x28]⟩ = [0x41] ∧
    (0xFFFD : Nat) ∈ get_stderr ⟨[0x41], [0xC3, 0x28]⟩ ∧
    (0xFFFD : Nat) ∈ get_stdout ⟨[0xFF], [0x42]⟩ ∧
    get_stderr ⟨[0xFF], [0x42]⟩ = [0x42] :=
  ⟨(c9_readers_total_lossy ⟨[0x41], [0xC3, 0x28]⟩).1 [0x41] (by decide),
    (c9_readers_total_lossy ⟨[0x41], [0xC3, 0x28]⟩).2.2.2 (by decide),
    (c9_readers_total_lossy ⟨[0xFF], [0x42]⟩).2.1 (by decide),
    (c9_readers_total_lossy ⟨[0xFF], [0x42]⟩).2.2.1 [0x42] (by decide)⟩
